import Mathlib

/-!
Shallow embedding of `src/PredictedProcess.ts` (classes `PredictedProcess` and
`PredictedProcessesManager`) and verification of the spec's claims about it.

Modelling conventions:
* A `ChildProcess` handle is modelled as a `Nat` token; only presence/absence matters.
* An `AbortSignal` is modelled by two booleans visible to `run`: whether a signal was
  passed at all (`hasSignal`) and whether it was already aborted at call time.
* The asynchronous part of a run is driven by an externally supplied event
  (`ProcEvent`): the one-shot `exit` notification carrying `(code, signal)` exactly as
  Node delivers them (both nullable), or the `error` channel for spawn failures.
* Thrown `Error` objects are modelled by the inductive `RunError`, one constructor per
  `throw`/`reject` site of the source, carrying the data interpolated into the message.
-/

namespace PredictedProc

/-- State of one `PredictedProcess` instance: the `id` and `command` constructor fields
plus the private mutable fields `_childProcess` and `_isRunning`. -/
structure PredictedProcess where
  id : Int
  command : String
  childProcess : Option Nat
  isRunning : Bool
deriving DecidableEq, Repr

/-- The constructor `new PredictedProcess(id, command)`: both private fields start out
as `null` / `false`. -/
def mkProcess (id : Int) (command : String) : PredictedProcess :=
  { id := id, command := command, childProcess := none, isRunning := false }

/-- `memoize()`: the source creates a fresh `PredictedProcess` with the same `id` and
`command` and explicitly reset `_childProcess = null`, `_isRunning = false`.  No cache
of any kind is created. -/
def memoize (p : PredictedProcess) : PredictedProcess :=
  { id := p.id, command := p.command, childProcess := none, isRunning := false }

/-- One rejection reason per `throw` / `reject` site in `PredictedProcess.run`. -/
inductive RunError where
  | abortAlreadyAborted                       -- throw new Error('AbortSignal already aborted')
  | alreadyRunning                            -- throw new Error('Process is already running')
  | processAborted (sig : Option String)      -- reject(`Process aborted with signal: ...`)
  | processFailed (code : Option Int)         -- reject(`Process failed with code ...`)
  | spawnError                                -- childProcess.on('error', reject)
deriving DecidableEq, Repr

/-- Settlement of the promise returned by `run`. -/
inductive RunResult where
  | resolved
  | rejected (e : RunError)
deriving DecidableEq, Repr

/-- The synchronous prefix of `run`, up to and including the `spawn` call. -/
inductive StartResult where
  | rejected (e : RunError) (state : PredictedProcess)
  | launched (state : PredictedProcess)
deriving DecidableEq, Repr

/-- The synchronous prefix of `PredictedProcess.run(signal?)`:
1. reject if a signal was passed and is already aborted;
2. reject if `_isRunning` is already true;
3. otherwise set `_isRunning = true`, spawn, and store the handle in `_childProcess`. -/
def runStart (p : PredictedProcess) (hasSignal aborted : Bool) : StartResult :=
  if hasSignal && aborted then
    .rejected .abortAlreadyAborted p
  else if p.isRunning then
    .rejected .alreadyRunning p
  else
    .launched { p with isRunning := true, childProcess := some 0 }

/-- The cleanup block at the top of the `onExit` handler:
`removeAllListeners()`, `_childProcess = null`, `_isRunning = false`. -/
def cleanup (p : PredictedProcess) : PredictedProcess :=
  { p with childProcess := none, isRunning := false }

/-- The `onExit` handler of `run`: first the cleanup, then the classification
`code === 0` / `signal === 'SIGABRT' || signal === null` / otherwise. -/
def onExit (p : PredictedProcess) (code : Option Int) (sig : Option String) :
    RunResult × PredictedProcess :=
  if code = some 0 then
    (.resolved, cleanup p)
  else if sig = some "SIGABRT" ∨ sig = none then
    (.rejected (.processAborted sig), cleanup p)
  else
    (.rejected (.processFailed code), cleanup p)

/-- The `'error'` handler of `run`: it only calls `reject(error)` — no listener removal,
no `_childProcess = null`, no `_isRunning = false`. -/
def onError (p : PredictedProcess) : RunResult × PredictedProcess :=
  (.rejected .spawnError, p)

/-- The single asynchronous event that settles a launched run: the one-shot `exit`
notification `(code, signal)` or an `error` event. -/
inductive ProcEvent where
  | exit (code : Option Int) (sig : Option String)
  | error
deriving DecidableEq, Repr

/-- Dispatch of the settling event to its handler. -/
def runFinish (p : PredictedProcess) (ev : ProcEvent) : RunResult × PredictedProcess :=
  match ev with
  | .exit code sig => onExit p code sig
  | .error => onError p

/-- Observable record of one whole call to `run`: how the promise settled, the instance
state afterwards, and whether `spawn` was called. -/
structure RunTrace where
  result : RunResult
  state : PredictedProcess
  spawned : Bool
deriving DecidableEq, Repr

/-- One whole call to `PredictedProcess.run(signal?)`, with `ev` the event that settles
it when a process was actually launched. -/
def run (p : PredictedProcess) (hasSignal aborted : Bool) (ev : ProcEvent) : RunTrace :=
  match runStart p hasSignal aborted with
  | .rejected e s => { result := .rejected e, state := s, spawned := false }
  | .launched s =>
      let fin := runFinish s ev
      { result := fin.1, state := fin.2, spawned := true }

/-- The abort listener `onAbort` of `run` does exactly one thing:
`childProcess.kill('SIGABRT')`. -/
def onAbortKillSignal : String := "SIGABRT"

/-- The exit notification Node delivers for a process terminated by signal `s`:
`code` is null and `signal` is `s`. -/
def signalExit (s : String) : ProcEvent := .exit none (some s)

/-- State of a `PredictedProcessesManager`: the private `_processes` array. -/
structure PredictedProcessesManager where
  processList : List PredictedProcess
deriving DecidableEq, Repr

/-- `addProcess(process)`: `this._processes.push(process); return this`. -/
def addProcess (m : PredictedProcessesManager) (p : PredictedProcess) :
    PredictedProcessesManager :=
  { processList := m.processList ++ [p] }

/-- `removeProcess(id)`: `this._processes = this._processes.filter(p => p.id !== id);`
`return this`. -/
def removeProcess (m : PredictedProcessesManager) (i : Int) :
    PredictedProcessesManager :=
  { processList := m.processList.filter (fun p => p.id != i) }

/-- `getProcess(id)`: `this.processes.find(p => p.id === id)`. -/
def getProcess (m : PredictedProcessesManager) (i : Int) : Option PredictedProcess :=
  m.processList.find? (fun p => p.id == i)

/-- Settlement of one per-process promise inside `runAll`, one constructor per
`resolve`/`reject` site; `rejectedExit` carries the data interpolated into the message
`Process id exited with code c`. -/
inductive EntryResult where
  | resolved                                   -- 'close' with code === 0
  | rejectedExit (id : Int) (code : Int)       -- 'close' with code !== 0
  | rejectedError                              -- 'error' handler
  | rejectedAbort                              -- 'abort' listener: new Error('AbortSignal triggered')
deriving DecidableEq, Repr

/-- An event that can reach one per-process promise of `runAll`: the `'close'`
notification with its exit code, the `'error'` channel, or the abort signal firing. -/
inductive GroupEvent where
  | close (code : Int)
  | error
  | abort
deriving DecidableEq, Repr

/-- How one event settles the per-process promise of task `p` in `runAll`, paired with
whether the event handler also issued a `kill()` termination request
(only the abort listener does: `spawnedProcess.kill()`). -/
def settleEvent (p : PredictedProcess) (ev : GroupEvent) : EntryResult × Bool :=
  match ev with
  | .close code => if code = 0 then (.resolved, false) else (.rejectedExit p.id code, false)
  | .error => (.rejectedError, false)
  | .abort => (.rejectedAbort, true)

/-- Outcome of one per-process promise of `runAll` given the sequence of events that
reach it, in real-time order: a promise settles once, on the first settling event, and
every later event leaves the settlement unchanged; `none` means no event arrived yet,
so the promise is still pending. -/
def entryOutcome (p : PredictedProcess) : List GroupEvent → Option EntryResult
  | [] => none
  | ev :: _ => some (settleEvent p ev).1

/-- All per-process settlements of `runAll`, task by task in array order; `none` as soon
as one promise is still pending (`Promise.allSettled` has not finished). -/
def settleAll : List PredictedProcess → List (List GroupEvent) → Option (List EntryResult)
  | [], [] => some []
  | [], _ :: _ => none
  | _ :: _, [] => none
  | p :: ps, evs :: evss =>
      match entryOutcome p evs, settleAll ps evss with
      | some r, some rs => some (r :: rs)
      | _, _ => none

/-- Whether an `EntryResult` is a rejection (an error pushed onto `errors` by the
`.catch` wrapper in `runAll`). -/
def isErr : EntryResult → Bool
  | .resolved => false
  | _ => true

/-- Final settlement of `runAll`. -/
inductive RunAllResult where
  | resolved
  | batchFailed (causes : List EntryResult)    -- throw new Error('At least one process ...')
deriving DecidableEq, Repr

/-- `runAll(signal?)`: awaits `Promise.allSettled` over the per-process promises and
throws iff some promise rejected; `none` while some per-process promise is still
pending.  The `errors` array is abstracted here to task order (`rs.filter isErr`);
this definition is used only for the settlement facts (which promise settlements make
the batch settle or resolve), which do not depend on the order of `errors`.  The
faithful model of the `errors` array — each `.catch(error => errors.push(error))`
callback pushes when its own promise settles, so `errors` accumulates in
promise-settlement order, not task order — is `runAllSched` below. -/
def runAll (m : PredictedProcessesManager) (evss : List (List GroupEvent)) :
    Option RunAllResult :=
  match settleAll m.processList evss with
  | none => none
  | some rs =>
      let errors := rs.filter isErr
      if errors = [] then some .resolved else some (.batchFailed errors)

/-- The mutable state of one `runAll` call while its promises are in flight:
`settled` holds, per task position, the settlement of that task's promise (`none`
while pending), and `errors` is the `errors` array, holding the rejection reasons in
the order the `.catch` callbacks pushed them — promise-settlement order. -/
structure GroupState where
  settled : List (Option EntryResult)
  errors : List EntryResult
deriving DecidableEq, Repr

/-- Settling the promise at position `i` with result `r`: the settlement is recorded
and, when `r` is a rejection, its reason is pushed onto the end of `errors` (the
`.catch` callback runs at settlement time). -/
def settleStep (st : GroupState) (i : Nat) (r : EntryResult) : GroupState :=
  { settled := st.settled.set i (some r),
    errors := if isErr r then st.errors ++ [r] else st.errors }

/-- One real-time event addressed to the promise at position `i` of the group: if
that position exists and its promise is still pending, the event settles it (and
pushes a rejection reason); an event reaching an already-settled promise, like a
duplicate `resolve`/`reject` on a settled promise, does nothing. -/
def stepGroup (ps : List PredictedProcess) (st : GroupState) (ev : Nat × GroupEvent) :
    GroupState :=
  match ps[ev.1]?, st.settled[ev.1]? with
  | some p, some none => settleStep st ev.1 ((settleEvent p ev.2).1)
  | _, _ => st

/-- The group state before any event: every promise pending, `errors` empty. -/
def initGroup (ps : List PredictedProcess) : GroupState :=
  { settled := List.replicate ps.length none, errors := [] }

/-- The group state after a schedule of events, where `sched` lists the events
addressed to the per-process promises in real-time order. -/
def runGroup (ps : List PredictedProcess) (sched : List (Nat × GroupEvent)) :
    GroupState :=
  sched.foldl (stepGroup ps) (initGroup ps)

/-- `runAll(signal?)` with the `errors` array modelled faithfully: after
`Promise.allSettled` (every promise settled), the call resolves iff `errors` is
empty and otherwise throws carrying `errors` as collected — in promise-settlement
order; `none` while some promise is still pending. -/
def runAllSched (m : PredictedProcessesManager) (sched : List (Nat × GroupEvent)) :
    Option RunAllResult :=
  if (runGroup m.processList sched).settled.all Option.isSome then
    if (runGroup m.processList sched).errors = [] then some RunAllResult.resolved
    else some (RunAllResult.batchFailed (runGroup m.processList sched).errors)
  else none

/-- The task id a cause names, if any: only the `Process id exited with code c`
message of a non-zero `'close'` interpolates the failing task's id; the raw spawn
error of the `'error'` channel and the `'AbortSignal triggered'` abort error name no
task. -/
def causeTaskId : EntryResult → Option Int
  | .rejectedExit i _ => some i
  | _ => none

/-! ## Helper lemmas -/

/-- Every branch of the exit handler leaves the instance in the cleaned-up state. -/
theorem onExit_state (p : PredictedProcess) (code : Option Int) (sig : Option String) :
    (onExit p code sig).2 = cleanup p := by
  unfold onExit
  split
  · rfl
  · split <;> rfl

/-! ## Claims -/

/-- Claim C1 (code_bug evidence).  The claim says: once a memoized task `M` has
completed `M.run(K)` successfully, a later `M.run(K)` with the same key resolves
immediately without launching a new executor process.  The source's `memoize()`
builds no cache at all, so after a first successful run of the memoized instance a
second call spawns again: here the first run of `memoize(new PredictedProcess(1,
'exit 0'))` resolves, and the second call on the resulting state reports
`spawned = true`. -/
theorem memoized_second_run_spawns_again :
    (run (memoize (mkProcess 1 "exit 0")) false false (ProcEvent.exit (some 0) none)).result
      = RunResult.resolved
    ∧ (run (run (memoize (mkProcess 1 "exit 0")) false false
          (ProcEvent.exit (some 0) none)).state
        false false (ProcEvent.exit (some 0) none)).spawned = true := by
  decide

/-- Claim C2 (code_bug evidence).  The claim says a normal exit with code 7 rejects
with `ProcessFailed{exitCode: 7}`.  A normal exit delivers `signal === null`, so the
source's branch `signal === 'SIGABRT' || signal === null` captures it first and the
run rejects with the `Process aborted` error instead of the `Process failed with
code 7` one. -/
theorem exit7_rejects_as_aborted :
    (run (mkProcess 1 "exit 7") false false (ProcEvent.exit (some 7) none)).result
      = RunResult.rejected (RunError.processAborted none)
    ∧ RunResult.rejected (RunError.processAborted none)
      ≠ RunResult.rejected (RunError.processFailed (some 7)) := by
  decide

/-- Claim C3 (code_bug evidence).  The claim says cleanup (handle release, listener
removal, flag reset) runs on every terminal path, launch error included, so a
finished run never leaves the instance blocked by `AlreadyRunning`.  The exit paths
do clean up (first conjunct, all classification branches), but the `'error'` handler
only rejects: after a run settled through the error channel the instance still has
`_isRunning = true` and a live `_childProcess`, and the next `run` call on it is
rejected with the `Process is already running` error. -/
theorem error_path_skips_cleanup :
    (∀ (p : PredictedProcess) (code : Option Int) (sig : Option String),
        (onExit p code sig).2.isRunning = false ∧ (onExit p code sig).2.childProcess = none)
    ∧ (run (mkProcess 1 "boom") false false ProcEvent.error).result
        = RunResult.rejected RunError.spawnError
    ∧ (run (mkProcess 1 "boom") false false ProcEvent.error).state.isRunning = true
    ∧ (run (mkProcess 1 "boom") false false ProcEvent.error).state.childProcess = some 0
    ∧ (run ((run (mkProcess 1 "boom") false false ProcEvent.error).state) false false
        (ProcEvent.exit (some 0) none)).result = RunResult.rejected RunError.alreadyRunning := by
  refine ⟨fun p code sig => ?_, by decide, by decide, by decide, by decide⟩
  rw [onExit_state]
  exact ⟨rfl, rfl⟩

/-- Claim C4 (code_bug evidence).  The claim says N concurrent `M.run(K)` calls on a
memoized task with the same key all share the one in-flight outcome and none is
rejected with `AlreadyRunning`.  Since `memoize()` returns a plain new instance with
no cache, a second call made while the first is in flight hits the `_isRunning`
guard and is rejected with the `Process is already running` error. -/
theorem concurrent_memoized_call_rejected :
    runStart (memoize (mkProcess 1 "sleep 5")) true false
      = StartResult.launched
          { id := 1, command := "sleep 5", childProcess := some 0, isRunning := true }
    ∧ runStart
          { id := 1, command := "sleep 5", childProcess := some 0, isRunning := true }
          true false
      = StartResult.rejected RunError.alreadyRunning
          { id := 1, command := "sleep 5", childProcess := some 0, isRunning := true } := by
  decide

/-- Claim C8: if the cancellation context is already aborted when `run` is called,
the call rejects immediately with the `AbortSignal already aborted` error, the
instance state is untouched, and no process is spawned — for every instance state
and whatever settling event would have followed. -/
theorem run_already_aborted_rejects_without_spawn (p : PredictedProcess) (ev : ProcEvent) :
    run p true true ev
      = { result := RunResult.rejected RunError.abortAlreadyAborted,
          state := p, spawned := false } := rfl

/-- Claim C9: when the abort signal fires while a run is in flight, the abort
listener requests termination with `kill('SIGABRT')`; once the executor then
reports the signal-termination exit `(code = null, signal = 'SIGABRT')`, the run
rejects with the `Process aborted` error and does not resolve successfully, and a
process was indeed spawned for the run. -/
theorem run_cancelled_rejects_process_aborted (p : PredictedProcess)
    (h : p.isRunning = false) :
    onAbortKillSignal = "SIGABRT"
    ∧ (run p true false (signalExit onAbortKillSignal)).spawned = true
    ∧ (run p true false (signalExit onAbortKillSignal)).result
        = RunResult.rejected (RunError.processAborted (some "SIGABRT"))
    ∧ (run p true false (signalExit onAbortKillSignal)).result ≠ RunResult.resolved := by
  simp [run, runStart, h, signalExit, onAbortKillSignal, runFinish, onExit]

/-- Witness for C9 at the spec's scenario task `sleep 5`. -/
theorem run_cancelled_rejects_process_aborted_witness :
    (mkProcess 1 "sleep 5").isRunning = false
    ∧ (run (mkProcess 1 "sleep 5") true false (signalExit onAbortKillSignal)).result
        = RunResult.rejected (RunError.processAborted (some "SIGABRT")) :=
  ⟨rfl, (run_cancelled_rejects_process_aborted (mkProcess 1 "sleep 5") rfl).2.2.1⟩

/-- A settled per-process promise stays settled: later events do not change it. -/
theorem entryOutcome_append (p : PredictedProcess) (evs evs2 : List GroupEvent)
    (r : EntryResult) (h : entryOutcome p evs = some r) :
    entryOutcome p (evs ++ evs2) = some r := by
  cases evs with
  | nil => simp [entryOutcome] at h
  | cons e es => simpa [entryOutcome] using h

/-- Claim C5 counterexample.  The claim says triggering cancellation only requests
termination and never by itself produces a terminal outcome — the settlement being
determined only by the subsequent exit notification, an abort event would leave
each entry's settlement exactly what the rest of its events determine.  That is
false: for the task `sleep 5`, the event sequence `abort` then `close 0` settles as
the fabricated `AbortSignal triggered` rejection, while the exit notification alone
would have resolved the entry. -/
theorem group_abort_fabricates_outcome :
    ¬ (∀ (p : PredictedProcess) (evs : List GroupEvent),
        entryOutcome p (GroupEvent.abort :: evs) = entryOutcome p evs) := fun h =>
  absurd (h (mkProcess 2 "sleep 5") [GroupEvent.close 0]) (by decide)

/-- Claim C5 as amended: during `runAll`, the abort listener both requests
termination of the process (`kill()`) and immediately rejects a not-yet-settled
entry with the `AbortSignal triggered` error; entries already settled by an earlier
event keep their outcome, unaffected by any later events. -/
theorem group_abort_kills_and_rejects (p : PredictedProcess)
    (evs evs2 : List GroupEvent) (r : EntryResult) (h : entryOutcome p evs = some r) :
    (settleEvent p GroupEvent.abort).2 = true
    ∧ entryOutcome p (GroupEvent.abort :: evs) = some EntryResult.rejectedAbort
    ∧ entryOutcome p (evs ++ evs2) = some r :=
  ⟨rfl, rfl, entryOutcome_append p evs evs2 r h⟩

/-- Witness for the amended C5: a `sleep 5` entry settled by a successful close is
unaffected by a later abort, while an abort reaching a pending entry kills and
rejects. -/
theorem group_abort_kills_and_rejects_witness :
    entryOutcome (mkProcess 2 "sleep 5") [GroupEvent.close 0] = some EntryResult.resolved
    ∧ ((settleEvent (mkProcess 2 "sleep 5") GroupEvent.abort).2 = true
        ∧ entryOutcome (mkProcess 2 "sleep 5") (GroupEvent.abort :: [GroupEvent.close 0])
            = some EntryResult.rejectedAbort
        ∧ entryOutcome (mkProcess 2 "sleep 5") ([GroupEvent.close 0] ++ [GroupEvent.abort])
            = some EntryResult.resolved) :=
  ⟨by decide,
    group_abort_kills_and_rejects (mkProcess 2 "sleep 5") [GroupEvent.close 0]
      [GroupEvent.abort] EntryResult.resolved (by decide)⟩

/-- `settleAll` produces a value exactly when every per-process promise has settled. -/
theorem settleAll_isSome_iff (ps : List PredictedProcess)
    (evss : List (List GroupEvent)) :
    (settleAll ps evss).isSome ↔
      List.Forall₂ (fun p evs => (entryOutcome p evs).isSome) ps evss := by
  induction ps generalizing evss with
  | nil =>
      cases evss with
      | nil => simp [settleAll]
      | cons e es => simp [settleAll]
  | cons p ps ih =>
      cases evss with
      | nil => simp [settleAll]
      | cons evs evss' =>
          rw [List.forall₂_cons, ← ih]
          cases h1 : entryOutcome p evs with
          | none => simp [settleAll, h1]
          | some r =>
              cases h2 : settleAll ps evss' with
              | none => simp [settleAll, h1, h2]
              | some rs => simp [settleAll, h1, h2]

/-- When every per-process promise resolves, `settleAll` returns a list with no
rejection in it. -/
theorem settleAll_all_resolved (ps : List PredictedProcess)
    (evss : List (List GroupEvent))
    (h : List.Forall₂ (fun p evs => entryOutcome p evs = some EntryResult.resolved)
        ps evss) :
    ∃ rs, settleAll ps evss = some rs ∧ rs.filter isErr = [] := by
  induction h with
  | nil => exact ⟨[], rfl, rfl⟩
  | cons h1 h2 ih =>
      obtain ⟨rs, hrs, hf⟩ := ih
      exact ⟨EntryResult.resolved :: rs, by simp [settleAll, h1, hrs],
        by simp [List.filter_cons, isErr, hf]⟩

/-- Claim C6: `runAll` settles exactly when every per-process promise has reached a
terminal settlement — `Promise.allSettled` never lets a failure of one entry settle
the batch while another entry is still pending — and when every entry resolves the
batch resolves. -/
theorem runAll_waits_for_all (m : PredictedProcessesManager)
    (evss : List (List GroupEvent)) :
    ((runAll m evss).isSome ↔
      List.Forall₂ (fun p evs => (entryOutcome p evs).isSome) m.processList evss)
    ∧ (List.Forall₂ (fun p evs => entryOutcome p evs = some EntryResult.resolved)
          m.processList evss
        → runAll m evss = some RunAllResult.resolved) := by
  constructor
  · rw [← settleAll_isSome_iff]
    cases h : settleAll m.processList evss with
    | none => simp [runAll, h]
    | some rs =>
        simp only [runAll, h, Option.isSome_some, iff_true]
        split <;> simp
  · intro hres
    obtain ⟨rs, hrs, hf⟩ := settleAll_all_resolved _ _ hres
    simp [runAll, hrs, hf]

/-- Witness for C6 on a one-task group: with its single promise settled
successfully, `runAll` is settled and resolved. -/
theorem runAll_waits_for_all_witness :
    (runAll ⟨[mkProcess 1 "exit 0"]⟩ [[GroupEvent.close 0]]).isSome
    ∧ runAll ⟨[mkProcess 1 "exit 0"]⟩ [[GroupEvent.close 0]]
        = some RunAllResult.resolved :=
  ⟨(runAll_waits_for_all ⟨[mkProcess 1 "exit 0"]⟩ [[GroupEvent.close 0]]).1.mpr
      (List.Forall₂.cons (by decide) List.Forall₂.nil),
    (runAll_waits_for_all ⟨[mkProcess 1 "exit 0"]⟩ [[GroupEvent.close 0]]).2
      (List.Forall₂.cons (by decide) List.Forall₂.nil)⟩

/-- Replacing a pending slot by a settlement inserts that settlement, up to
permutation, into the list of settlements. -/
theorem filterMap_set_none_perm {α : Type} (l : List (Option α)) (i : Nat) (r : α)
    (h : l[i]? = some none) :
    ((l.set i (some r)).filterMap id).Perm (r :: l.filterMap id) := by
  induction l generalizing i with
  | nil => simp at h
  | cons a t ih =>
      cases i with
      | zero =>
          obtain rfl : a = none := by simpa using h
          exact List.Perm.refl _
      | succ n =>
          have h' : t[n]? = some none := by simpa using h
          cases a with
          | none => exact ih n h'
          | some b => exact ((ih n h').cons b).trans (List.Perm.swap r b _)

/-- Settling one pending promise keeps the invariant: the `errors` array is a
permutation of the rejections among the recorded settlements. -/
theorem settleStep_errors_perm (st : GroupState) (i : Nat) (r : EntryResult)
    (hs : st.settled[i]? = some none)
    (h : st.errors.Perm ((st.settled.filterMap id).filter isErr)) :
    (settleStep st i r).errors.Perm
      (((settleStep st i r).settled.filterMap id).filter isErr) := by
  have hflt := (filterMap_set_none_perm st.settled i r hs).filter isErr
  rw [List.filter_cons] at hflt
  show (if isErr r = true then st.errors ++ [r] else st.errors).Perm
    (((st.settled.set i (some r)).filterMap id).filter isErr)
  by_cases he : isErr r = true
  · rw [if_pos he] at hflt ⊢
    exact (List.perm_append_singleton r st.errors).trans ((h.cons r).trans hflt.symm)
  · rw [if_neg he] at hflt ⊢
    exact h.trans hflt.symm

/-- One group event keeps the invariant relating `errors` to the settlements. -/
theorem stepGroup_errors_perm (ps : List PredictedProcess) (st : GroupState)
    (ev : Nat × GroupEvent)
    (h : st.errors.Perm ((st.settled.filterMap id).filter isErr)) :
    (stepGroup ps st ev).errors.Perm
      (((stepGroup ps st ev).settled.filterMap id).filter isErr) := by
  unfold stepGroup
  rcases hp : ps[ev.1]? with _ | p
  · exact h
  · rcases hs : st.settled[ev.1]? with _ | (_ | r0)
    · exact h
    · exact settleStep_errors_perm st ev.1 _ hs h
    · exact h

/-- The invariant carries over a whole schedule of events. -/
theorem foldl_stepGroup_errors_perm (ps : List PredictedProcess)
    (sched : List (Nat × GroupEvent)) (st : GroupState)
    (h : st.errors.Perm ((st.settled.filterMap id).filter isErr)) :
    ((sched.foldl (stepGroup ps) st).errors).Perm
      (((sched.foldl (stepGroup ps) st).settled.filterMap id).filter isErr) := by
  induction sched generalizing st with
  | nil => exact h
  | cons e es ih => exact ih _ (stepGroup_errors_perm ps st e h)

/-- In any reachable group state, the `errors` array is a permutation of the
rejections among the per-process settlements. -/
theorem runGroup_errors_perm (ps : List PredictedProcess)
    (sched : List (Nat × GroupEvent)) :
    ((runGroup ps sched).errors).Perm
      (((runGroup ps sched).settled.filterMap id).filter isErr) := by
  apply foldl_stepGroup_errors_perm
  have hrep : (List.replicate ps.length (none : Option EntryResult)).filterMap id
      = [] := by
    induction ps.length with
    | zero => rfl
    | succ n ih => simp [List.replicate_succ, List.filterMap_cons, ih]
  show ([] : List EntryResult).Perm
    (((List.replicate ps.length (none : Option EntryResult)).filterMap id).filter isErr)
  rw [hrep]
  exact List.Perm.refl _

/-- Claim C7 counterexample.  The claim says the causes of a `BatchFailed` rejection
are an ordered (task-order) collection, each entry identifying which task failed and
why.  Both parts fail on the code.  First, the `.catch` callbacks push rejection
reasons in promise-settlement order: for the group `[sleep 2; exit 1, exit 1]`,
where the second task's failure settles before the first's, the causes come out as
`[task 2's failure, task 1's failure]`, not the task-order collection.  Second, a
cause produced by the `'error'` channel is the raw spawn error, which names no task
(and likewise the abort cause `AbortSignal triggered`). -/
theorem runAll_causes_claim_counterexample :
    (¬ ∀ (ps : List PredictedProcess) (sched : List (Nat × GroupEvent))
        (causes : List EntryResult),
        runAllSched ⟨ps⟩ sched = some (RunAllResult.batchFailed causes) →
        causes = ((runGroup ps sched).settled.filterMap id).filter isErr)
    ∧ runAllSched ⟨[mkProcess 5 "boom"]⟩ [(0, GroupEvent.error)]
        = some (RunAllResult.batchFailed [EntryResult.rejectedError])
    ∧ causeTaskId EntryResult.rejectedError = none := by
  refine ⟨fun hclaim => ?_, by decide, rfl⟩
  have h2 := hclaim [mkProcess 1 "sleep 2; exit 1", mkProcess 2 "exit 1"]
      [(1, GroupEvent.close 1), (0, GroupEvent.close 1)]
      [EntryResult.rejectedExit 2 1, EntryResult.rejectedExit 1 1] (by decide)
  exact absurd h2 (by decide)

/-- Claim C7 as amended: when `runAll` rejects, its `BatchFailed` causes are
nonempty, all rejections, and — as a multiset — exactly the rejections among the
per-process settlements (one entry per failing process, none for a resolved one),
collected in promise-settlement order rather than task order; a cause identifies the
failing task (id and exit code) exactly when it comes from a non-zero `'close'`,
while `'error'`-channel and abort causes name no task. -/
theorem runAll_batchFailed_causes_settle_order (ps : List PredictedProcess)
    (sched : List (Nat × GroupEvent)) (causes : List EntryResult)
    (hb : runAllSched ⟨ps⟩ sched = some (RunAllResult.batchFailed causes)) :
    causes ≠ []
    ∧ (∀ c ∈ causes, isErr c = true)
    ∧ causes.Perm (((runGroup ps sched).settled.filterMap id).filter isErr)
    ∧ (∀ c ∈ causes,
        (∃ i code, c = EntryResult.rejectedExit i code ∧ causeTaskId c = some i)
        ∨ causeTaskId c = none) := by
  have hperm := runGroup_errors_perm ps sched
  unfold runAllSched at hb
  split_ifs at hb with h1 h2
  · exact absurd hb (by simp)
  · have hc : (runGroup ps sched).errors = causes := by simpa using hb
    subst hc
    refine ⟨h2, ?_, hperm, ?_⟩
    · intro c hc
      exact (List.mem_filter.mp (hperm.mem_iff.mp hc)).2
    · intro c hc
      cases c with
      | resolved => exact Or.inr rfl
      | rejectedExit i code => exact Or.inl ⟨i, code, rfl, rfl⟩
      | rejectedError => exact Or.inr rfl
      | rejectedAbort => exact Or.inr rfl

/-- Witness for the amended C7 at the spec's scenario: the group
`[exit 0, exit 1, exit 0]` with each process closing normally (in task order)
rejects with the nonempty causes `[rejectedExit 2 1]` — all rejections — and that
single cause identifies task 2 and its exit code 1. -/
theorem runAll_batchFailed_causes_settle_order_witness :
    runAllSched ⟨[mkProcess 1 "exit 0", mkProcess 2 "exit 1", mkProcess 3 "exit 0"]⟩
        [(0, GroupEvent.close 0), (1, GroupEvent.close 1), (2, GroupEvent.close 0)]
      = some (RunAllResult.batchFailed [EntryResult.rejectedExit 2 1])
    ∧ ([EntryResult.rejectedExit 2 1] ≠ ([] : List EntryResult))
    ∧ (∀ c ∈ [EntryResult.rejectedExit 2 1], isErr c = true)
    ∧ causeTaskId (EntryResult.rejectedExit 2 1) = some 2 := by
  refine ⟨by decide, ?_, ?_, rfl⟩
  · exact (runAll_batchFailed_causes_settle_order
      [mkProcess 1 "exit 0", mkProcess 2 "exit 1", mkProcess 3 "exit 0"]
      [(0, GroupEvent.close 0), (1, GroupEvent.close 1), (2, GroupEvent.close 0)]
      [EntryResult.rejectedExit 2 1] (by decide)).1
  · exact (runAll_batchFailed_causes_settle_order
      [mkProcess 1 "exit 0", mkProcess 2 "exit 1", mkProcess 3 "exit 0"]
      [(0, GroupEvent.close 0), (1, GroupEvent.close 1), (2, GroupEvent.close 0)]
      [EntryResult.rejectedExit 2 1] (by decide)).2.1

/-- Claim C10: `removeProcess(id)` removes every task whose id matches (duplicates
included), keeps the remaining tasks in their relative order (sublist), is a no-op
when no task has that id, and membership in the result is membership in the
original minus the removed id. -/
theorem removeProcess_spec (m : PredictedProcessesManager) (i : Int) :
    (∀ q ∈ (removeProcess m i).processList, q.id ≠ i)
    ∧ (removeProcess m i).processList.Sublist m.processList
    ∧ ((∀ q ∈ m.processList, q.id ≠ i) → removeProcess m i = m)
    ∧ (∀ q, q ∈ (removeProcess m i).processList ↔ q ∈ m.processList ∧ q.id ≠ i) := by
  refine ⟨?_, ?_, ?_, ?_⟩
  · intro q hq
    simp only [removeProcess, List.mem_filter, bne_iff_ne, ne_eq] at hq
    exact hq.2
  · exact List.filter_sublist m.processList
  · intro hall
    have hsame : m.processList.filter (fun p => p.id != i) = m.processList :=
      List.filter_eq_self.mpr (fun a ha => by simpa [bne_iff_ne] using hall a ha)
    cases m with
    | mk l => exact congrArg PredictedProcessesManager.mk hsame
  · intro q
    simp [removeProcess, List.mem_filter, bne_iff_ne]

/-- Witness for C10 on a manager holding duplicate ids: both tasks with id 1 are
removed, the task with id 2 stays, and the in-between chaining value is the
expected manager. -/
theorem removeProcess_spec_witness :
    (∀ q ∈ (removeProcess
        ⟨[mkProcess 1 "exit 0", mkProcess 2 "exit 1", mkProcess 1 "exit 2"]⟩
        1).processList, q.id ≠ 1)
    ∧ (removeProcess
          ⟨[mkProcess 1 "exit 0", mkProcess 2 "exit 1", mkProcess 1 "exit 2"]⟩
          1).processList = [mkProcess 2 "exit 1"] :=
  ⟨(removeProcess_spec
      ⟨[mkProcess 1 "exit 0", mkProcess 2 "exit 1", mkProcess 1 "exit 2"]⟩ 1).1,
    by decide⟩

end PredictedProc
